import Mathlib

/-!
Verification of the Resilient Session Client (`src/lib/gameServer.ts`) of the
talespin repository, together with the near-duplicate legacy client variant
(`src/gameServer.ts`).  The client is single-threaded and event-driven: all
transport callbacks (open, message, close) and all public methods run on one
cooperative event loop, so the client is embedded as a pure state machine whose
steps are the public method calls and the transport events delivered by the
environment.
-/

/-- A JSON value, modelling the JavaScript values the client passes through
`JSON.stringify` / `JSON.parse`.  Numbers are restricted to integers (the
client's own payloads carry only strings and nested objects). -/
inductive Json where
  | null : Json
  | bool (b : Bool) : Json
  | num (n : Int) : Json
  | str (s : String) : Json
  | arr (xs : List Json) : Json
  | obj (fields : List (String × Json)) : Json
deriving Repr

/-- Escape one character the way `JSON.stringify` quotes string contents
(double quote and backslash; the payloads in this code contain no control
characters). -/
def escapeChar (c : Char) : String :=
  if c = '"' then "\\\"" else if c = '\\' then "\\\\" else String.singleton c

/-- Quote a string as `JSON.stringify` renders a JavaScript string. -/
def jsonQuote (s : String) : String :=
  "\"" ++ String.join (s.toList.map escapeChar) ++ "\""

mutual
/-- Model of `JSON.stringify` on the JSON values above: renders an object as
a brace-delimited comma-separated list of quoted keys and values, in field
order, with no whitespace. -/
def Json.stringify : Json → String
  | .null => "null"
  | .bool true => "true"
  | .bool false => "false"
  | .num n => toString n
  | .str s => jsonQuote s
  | .arr xs => "[" ++ stringifyItems xs ++ "]"
  | .obj fs => "\x7b" ++ stringifyFields fs ++ "\x7d"

/-- Comma-separated rendering of the elements of a JSON array. -/
def stringifyItems : List Json → String
  | [] => ""
  | [x] => Json.stringify x
  | x :: y :: xs => Json.stringify x ++ "," ++ stringifyItems (y :: xs)

/-- Comma-separated rendering of the fields of a JSON object. -/
def stringifyFields : List (String × Json) → String
  | [] => ""
  | [(k, v)] => jsonQuote k ++ ":" ++ Json.stringify v
  | (k, v) :: f :: fs => jsonQuote k ++ ":" ++ Json.stringify v ++ "," ++ stringifyFields (f :: fs)
end

/-- Drop leading JSON whitespace from a character list. -/
def skipWs : List Char → List Char
  | c :: cs => if c = ' ' ∨ c = '\n' ∨ c = '\t' ∨ c = '\r' then skipWs cs else c :: cs
  | [] => []

/-- Translate a character following a backslash in a JSON string literal. -/
def unescapeChar (c : Char) : Char :=
  if c = 'n' then '\n' else if c = 't' then '\t' else if c = 'r' then '\r' else c

/-- Parse the body of a JSON string literal (the opening quote already
consumed), returning the decoded string and the remaining input. -/
def parseStr : List Char → Option (String × List Char)
  | [] => none
  | c :: cs =>
    if c = '"' then some ("", cs)
    else if c = '\\' then
      match cs with
      | [] => none
      | d :: ds =>
        match parseStr ds with
        | some (s, rest) => some (String.singleton (unescapeChar d) ++ s, rest)
        | none => none
    else
      match parseStr cs with
      | some (s, rest) => some (String.singleton c ++ s, rest)
      | none => none

/-- Parse a nonempty run of decimal digits as a natural number. -/
def parseDigits : List Char → Option (Nat × List Char)
  | c :: cs =>
    if c.isDigit then
      match parseDigits cs with
      | some (n, rest) => some ((c.toNat - 48) * 10 ^ (String.mk (cs.takeWhile Char.isDigit)).length + n, rest)
      | none => some (c.toNat - 48, cs)
    else none
  | [] => none

mutual
/-- Model of `JSON.parse` on a character list, with fuel to bound recursion
depth.  Accepts the JSON subset the client exchanges (objects, arrays,
strings, integers, `true`, `false`, `null`); returns `none` on malformed
input, the counterpart of `JSON.parse` throwing. -/
def parseVal : Nat → List Char → Option (Json × List Char)
  | 0, _ => none
  | fuel + 1, cs =>
    match skipWs cs with
    | '"' :: rest => (parseStr rest).map (fun p => (Json.str p.1, p.2))
    | 't' :: 'r' :: 'u' :: 'e' :: rest => some (Json.bool true, rest)
    | 'f' :: 'a' :: 'l' :: 's' :: 'e' :: rest => some (Json.bool false, rest)
    | 'n' :: 'u' :: 'l' :: 'l' :: rest => some (Json.null, rest)
    | '[' :: rest =>
      (match skipWs rest with
       | ']' :: rest2 => some (Json.arr [], rest2)
       | _ =>
         match parseItems fuel rest with
         | some (xs, rest2) => some (Json.arr xs, rest2)
         | none => none)
    | '\x7b' :: rest =>
      (match skipWs rest with
       | '\x7d' :: rest2 => some (Json.obj [], rest2)
       | _ =>
         match parseFields fuel rest with
         | some (fs, rest2) => some (Json.obj fs, rest2)
         | none => none)
    | '-' :: rest =>
      (match parseDigits rest with
       | some (n, rest2) => some (Json.num (-(n : Int)), rest2)
       | none => none)
    | c :: rest =>
      if c.isDigit then
        match parseDigits (c :: rest) with
        | some (n, rest2) => some (Json.num (n : Int), rest2)
        | none => none
      else none
    | [] => none

/-- Parse one or more comma-separated array elements and the closing `]`. -/
def parseItems : Nat → List Char → Option (List Json × List Char)
  | 0, _ => none
  | fuel + 1, cs =>
    match parseVal fuel cs with
    | none => none
    | some (x, rest) =>
      match skipWs rest with
      | ',' :: rest2 =>
        (match parseItems fuel rest2 with
         | some (xs, rest3) => some (x :: xs, rest3)
         | none => none)
      | ']' :: rest2 => some ([x], rest2)
      | _ => none

/-- Parse one or more comma-separated `"key":value` fields and the closing
brace. -/
def parseFields : Nat → List Char → Option (List (String × Json) × List Char)
  | 0, _ => none
  | fuel + 1, cs =>
    match skipWs cs with
    | '"' :: rest =>
      (match parseStr rest with
       | none => none
       | some (k, rest2) =>
         match skipWs rest2 with
         | ':' :: rest3 =>
           (match parseVal fuel rest3 with
            | none => none
            | some (v, rest4) =>
              match skipWs rest4 with
              | ',' :: rest5 =>
                (match parseFields fuel rest5 with
                 | some (fs, rest6) => some ((k, v) :: fs, rest6)
                 | none => none)
              | '\x7d' :: rest5 => some ([(k, v)], rest5)
              | _ => none)
         | _ => none)
    | _ => none
end

/-- Model of `JSON.parse` on a text frame: `some` decoded value on success,
`none` where `JSON.parse` would throw (trailing garbage included). -/
def jsonParse (s : String) : Option Json :=
  match parseVal (s.length + 1) s.toList with
  | some (j, rest) => if skipWs rest = [] then some j else none
  | none => none

/-! ## The Session Client (`src/lib/gameServer.ts`, caller-driven variant)

State of one `GameServer` instance.  `readyState` is the WebSocket ready
state of the current transport handle (0 CONNECTING, 1 OPEN, 2 CLOSING,
3 CLOSED); a freshly constructed handle starts at 0 and the browser moves it
to 1 before firing `onopen`.  `wsGen` counts how many times the handle has
been replaced (`new WebSocket` in the `onclose` handler).  `sent` is the
network trace: every string passed to `_ws.send`, in order, across all
handles.  `deliveries` records every invocation of a registered message
handler, in order.  The installed `onclosehandler` is caller code; the
callers in this repository only issue `send`-family calls from it, so it is
embedded as the list of intents it sends (`[]` is the initial no-op
handler). -/
structure ClientState where
  readyState : Nat
  wsGen : Nat
  message_queue : List String
  onmessage_handler : List Nat
  oncloseCb : List Json
  sent : List String
  deliveries : List (Nat × Json)
  recCbCalls : Nat
deriving Repr

namespace Client

/-- State after `new GameServer()`: one fresh CONNECTING handle, empty queue,
no message handlers, the no-op close handler. -/
def initState : ClientState :=
  { readyState := 0, wsGen := 0, message_queue := [], onmessage_handler := []
    oncloseCb := [], sent := [], deliveries := [], recCbCalls := 0 }

/-- `send(data)`: serialize; transmit immediately when the transport is OPEN
(`readyState === 1`), otherwise push the serialized text onto the tail of
`message_queue`. -/
def send (st : ClientState) (data : Json) : ClientState :=
  let data_str := data.stringify
  if st.readyState = 1 then
    { st with sent := st.sent ++ [data_str] }
  else
    { st with message_queue := st.message_queue ++ [data_str] }

/-- Run a sequence of `send` calls in order. -/
def sendAll (st : ClientState) (ds : List Json) : ClientState :=
  ds.foldl send st

/-- The `onopen` callback, fired by the environment once the current handle
reaches OPEN: transmit every queued string in queue order, then clear the
queue. -/
def evOpen (st : ClientState) : ClientState :=
  let st := { st with readyState := 1 }
  if st.message_queue.length > 0 then
    { st with sent := st.sent ++ st.message_queue, message_queue := [] }
  else st

/-- The `onmessage` callback on a raw text frame: `JSON.parse` it, then call
every registered handler in registration order with the decoded value.  When
`JSON.parse` throws, the exception aborts the callback before any handler
runs and before any state is touched. -/
def evMessage (st : ClientState) (raw : String) : ClientState :=
  match jsonParse raw with
  | none => st
  | some data =>
    { st with deliveries := st.deliveries ++ st.onmessage_handler.map (fun h => (h, data)) }

/-- The `onclose` callback, fired by the environment when the current handle
closes (deliberately or not): construct a brand-new `WebSocket` (CONNECTING),
attach the callbacks to it, then invoke the caller's `onclosehandler`. -/
def evClose (st : ClientState) : ClientState :=
  let st := { st with wsGen := st.wsGen + 1, readyState := 0 }
  sendAll { st with recCbCalls := st.recCbCalls + 1 } st.oncloseCb

/-- `addMsgHandler(func)`: append the handler to the list. -/
def addMsgHandler (st : ClientState) (h : Nat) : ClientState :=
  { st with onmessage_handler := st.onmessage_handler ++ [h] }

/-- `close()`: call `close()` on the current handle, moving it to CLOSING;
the close event itself is delivered later by the environment. -/
def close (st : ClientState) : ClientState :=
  { st with readyState := 2 }

/-- `onclose(func)`: install the close handler, replacing the previous. -/
def onclose (st : ClientState) (cb : List Json) : ClientState :=
  { st with oncloseCb := cb }

/-- `createRoom(name)`. -/
def createRoom (st : ClientState) (name : String) : ClientState :=
  send st (Json.obj [("CreateRoom", Json.obj [("name", Json.str name)])])

/-- `joinRoom(room_id, name)`. -/
def joinRoom (st : ClientState) (room_id : String) (name : String) : ClientState :=
  send st (Json.obj [("JoinRoom", Json.obj [("name", Json.str name), ("room_id", Json.str room_id)])])

/-- `ready()`. -/
def ready (st : ClientState) : ClientState :=
  send st (Json.obj [("Ready", Json.obj [])])

/-- `activePlayerChoose(card, description)`. -/
def activePlayerChoose (st : ClientState) (card : String) (description : String) : ClientState :=
  send st (Json.obj [("ActivePlayerChooseCard", Json.obj [("card", Json.str card), ("description", Json.str description)])])

/-- `playersChoose(card)`. -/
def playersChoose (st : ClientState) (card : String) : ClientState :=
  send st (Json.obj [("PlayerChooseCard", Json.obj [("card", Json.str card)])])

/-- `vote(card)`. -/
def vote (st : ClientState) (card : String) : ClientState :=
  send st (Json.obj [("Vote", Json.obj [("card", Json.str card)])])

/-- One step of the Session Client: a public method call by the caller or a
transport event delivered by the event loop. -/
inductive Act where
  | send (d : Json) : Act
  | addMsgHandler (h : Nat) : Act
  | onclose (cb : List Json) : Act
  | close : Act
  | evOpen : Act
  | evMessage (raw : String) : Act
  | evClose : Act
deriving Repr

/-- Interpret one step. -/
def step (st : ClientState) : Act → ClientState
  | .send d => send st d
  | .addMsgHandler h => addMsgHandler st h
  | .onclose cb => onclose st cb
  | .close => close st
  | .evOpen => evOpen st
  | .evMessage raw => evMessage st raw
  | .evClose => evClose st

/-- Interpret a sequence of steps from a state. -/
def run (st : ClientState) (acts : List Act) : ClientState :=
  acts.foldl step st

end Client

/-! ## The legacy client variant (`src/gameServer.ts`, internal-requeue)

This near-duplicate keeps `joined_room` and `name` fields; its `onclose`
handler, instead of invoking a caller callback, prepends
(`message_queue.unshift`) a synthetic serialized `JoinRoom` message to the
head of the queue whenever a room had been joined. -/
structure Client2State where
  readyState : Nat
  wsGen : Nat
  message_queue : List String
  onmessage_handler : List Nat
  opened : Bool
  joined_room : String
  name : String
  sent : List String
  deliveries : List (Nat × Json)
deriving Repr

namespace Client2

/-- `send(data)` of the legacy variant (same body as the main variant). -/
def send (st : Client2State) (data : Json) : Client2State :=
  let data_str := data.stringify
  if st.readyState = 1 then
    { st with sent := st.sent ++ [data_str] }
  else
    { st with message_queue := st.message_queue ++ [data_str] }

/-- The legacy `onclose` callback: construct a new handle, and when
`joined_room !== ''`, `unshift` a serialized `JoinRoom{name, room_id}` onto
the head of the queue; no caller callback exists in this variant. -/
def evClose (st : Client2State) : Client2State :=
  let st := { st with wsGen := st.wsGen + 1, readyState := 0 }
  if st.joined_room ≠ "" then
    { st with message_queue :=
        (Json.obj [("JoinRoom", Json.obj [("name", Json.str st.name),
          ("room_id", Json.str st.joined_room)])]).stringify :: st.message_queue }
  else st

end Client2

/-! ## Basic lemmas about the Session Client's steps -/

namespace Client

theorem send_notOpen (st : ClientState) (d : Json) (h : st.readyState ≠ 1) :
    send st d = { st with message_queue := st.message_queue ++ [d.stringify] } := by
  simp [send, h]

theorem send_open (st : ClientState) (d : Json) (h : st.readyState = 1) :
    send st d = { st with sent := st.sent ++ [d.stringify] } := by
  simp [send, h]

/-- `send` touches only `sent` and `message_queue`. -/
theorem send_preserves (st : ClientState) (d : Json) :
    (send st d).readyState = st.readyState ∧ (send st d).wsGen = st.wsGen ∧
    (send st d).recCbCalls = st.recCbCalls ∧
    (send st d).onmessage_handler = st.onmessage_handler ∧
    (send st d).oncloseCb = st.oncloseCb ∧
    (send st d).deliveries = st.deliveries := by
  unfold send
  split <;> exact ⟨rfl, rfl, rfl, rfl, rfl, rfl⟩

/-- A run of `send` calls while the transport is not OPEN queues every
serialized message, in call order, at the tail, and changes nothing else. -/
theorem sendAll_notOpen (ds : List Json) (st : ClientState) (h : st.readyState ≠ 1) :
    sendAll st ds = { st with message_queue := st.message_queue ++ ds.map Json.stringify } := by
  induction ds generalizing st with
  | nil => simp [sendAll]
  | cons d ds ih =>
    have h1 : sendAll st (d :: ds) = sendAll (send st d) ds := by
      simp [sendAll]
    rw [h1, send_notOpen st d h,
      ih { st with message_queue := st.message_queue ++ [d.stringify] } h]
    simp

/-- A run of `send` calls touches only `sent` and `message_queue`. -/
theorem sendAll_preserves (ds : List Json) (st : ClientState) :
    (sendAll st ds).readyState = st.readyState ∧ (sendAll st ds).wsGen = st.wsGen ∧
    (sendAll st ds).recCbCalls = st.recCbCalls ∧
    (sendAll st ds).onmessage_handler = st.onmessage_handler ∧
    (sendAll st ds).oncloseCb = st.oncloseCb ∧
    (sendAll st ds).deliveries = st.deliveries := by
  induction ds generalizing st with
  | nil => exact ⟨rfl, rfl, rfl, rfl, rfl, rfl⟩
  | cons d ds ih =>
    have h1 : sendAll st (d :: ds) = sendAll (send st d) ds := by
      simp [sendAll]
    rw [h1]
    obtain ⟨p1, p2, p3, p4, p5, p6⟩ := send_preserves st d
    obtain ⟨q1, q2, q3, q4, q5, q6⟩ := ih (send st d)
    exact ⟨q1.trans p1, q2.trans p2, q3.trans p3, q4.trans p4, q5.trans p5, q6.trans p6⟩

theorem run_nil (st : ClientState) : run st [] = st := rfl

theorem run_cons (st : ClientState) (a : Act) (acts : List Act) :
    run st (a :: acts) = run (step st a) acts := by
  simp [run]

/-- While no `open` event is delivered, a non-OPEN transport never becomes
OPEN and nothing is transmitted, whatever the caller does. -/
theorem sent_frozen (acts : List Act) (st : ClientState)
    (hst : st.readyState ≠ 1) (hno : Act.evOpen ∉ acts) :
    (run st acts).sent = st.sent ∧ (run st acts).readyState ≠ 1 := by
  induction acts generalizing st with
  | nil => exact ⟨rfl, hst⟩
  | cons a acts ih =>
    have hno' : Act.evOpen ∉ acts := fun hm => hno (List.mem_cons_of_mem _ hm)
    rw [run_cons]
    have hstep : (step st a).sent = st.sent ∧ (step st a).readyState ≠ 1 := by
      cases a with
      | send d =>
        show (send st d).sent = st.sent ∧ (send st d).readyState ≠ 1
        rw [send_notOpen st d hst]
        exact ⟨rfl, hst⟩
      | addMsgHandler h => exact ⟨rfl, hst⟩
      | onclose cb => exact ⟨rfl, hst⟩
      | close => exact ⟨rfl, by simp [step, close]⟩
      | evOpen => exact absurd (List.mem_cons_self _ _) hno
      | evMessage raw =>
        show (evMessage st raw).sent = st.sent ∧ (evMessage st raw).readyState ≠ 1
        unfold evMessage
        cases jsonParse raw with
        | none => exact ⟨rfl, hst⟩
        | some d => exact ⟨rfl, hst⟩
      | evClose =>
        show (evClose st).sent = st.sent ∧ (evClose st).readyState ≠ 1
        have he : evClose st =
            sendAll { st with wsGen := st.wsGen + 1, readyState := 0, recCbCalls := st.recCbCalls + 1 }
              st.oncloseCb := rfl
        rw [he, sendAll_notOpen _ _ (by simp)]
        exact ⟨rfl, by simp⟩
    obtain ⟨h1, h2⟩ := hstep
    obtain ⟨g1, g2⟩ := ih (step st a) h2 hno'
    exact ⟨g1.trans h1, g2⟩

/-- States reachable from a freshly constructed `GameServer`. -/
def Reachable (st : ClientState) : Prop :=
  ∃ acts : List Act, st = run initState acts

theorem reachable_init : Reachable initState := ⟨[], rfl⟩

theorem reachable_step (st : ClientState) (a : Act) (h : Reachable st) :
    Reachable (step st a) := by
  obtain ⟨acts, rfl⟩ := h
  refine ⟨acts ++ [a], ?_⟩
  simp [run]

/-- One step preserves the two basic run invariants: the outbound queue is
empty whenever the transport is OPEN, and the reconnect callback has fired
exactly once per handle replacement. -/
theorem step_inv (st : ClientState) (a : Act)
    (h1 : st.readyState = 1 → st.message_queue = [])
    (h2 : st.recCbCalls = st.wsGen) :
    ((step st a).readyState = 1 → (step st a).message_queue = []) ∧
    (step st a).recCbCalls = (step st a).wsGen := by
  cases a with
  | send d =>
    show ((send st d).readyState = 1 → (send st d).message_queue = []) ∧
      (send st d).recCbCalls = (send st d).wsGen
    unfold send
    split
    · exact ⟨fun _ => h1 (by assumption), h2⟩
    · exact ⟨fun hr => absurd hr (by assumption), h2⟩
  | addMsgHandler h => exact ⟨fun hr => h1 hr, h2⟩
  | onclose cb => exact ⟨fun hr => h1 hr, h2⟩
  | close => exact ⟨fun hr => by simp [step, close] at hr, h2⟩
  | evOpen =>
    show ((evOpen st).readyState = 1 → (evOpen st).message_queue = []) ∧
      (evOpen st).recCbCalls = (evOpen st).wsGen
    unfold evOpen
    dsimp only
    split
    · exact ⟨fun _ => rfl, h2⟩
    · refine ⟨fun _ => ?_, h2⟩
      have hl : st.message_queue.length = 0 := by omega
      exact List.length_eq_zero.mp hl
  | evMessage raw =>
    show ((evMessage st raw).readyState = 1 → (evMessage st raw).message_queue = []) ∧
      (evMessage st raw).recCbCalls = (evMessage st raw).wsGen
    unfold evMessage
    cases jsonParse raw with
    | none => exact ⟨h1, h2⟩
    | some d => exact ⟨h1, h2⟩
  | evClose =>
    show ((evClose st).readyState = 1 → (evClose st).message_queue = []) ∧
      (evClose st).recCbCalls = (evClose st).wsGen
    have he : evClose st =
        sendAll { st with wsGen := st.wsGen + 1, readyState := 0, recCbCalls := st.recCbCalls + 1 }
          st.oncloseCb := rfl
    rw [he, sendAll_notOpen _ _ (by simp)]
    exact ⟨fun hr => by simp at hr, by simp [h2]⟩

/-- Both run invariants hold in every reachable state. -/
theorem reachable_inv (st : ClientState) (h : Reachable st) :
    (st.readyState = 1 → st.message_queue = []) ∧ st.recCbCalls = st.wsGen := by
  obtain ⟨acts, rfl⟩ := h
  suffices key : ∀ (acts : List Act) (st : ClientState),
      (st.readyState = 1 → st.message_queue = []) → st.recCbCalls = st.wsGen →
      ((run st acts).readyState = 1 → (run st acts).message_queue = []) ∧
        (run st acts).recCbCalls = (run st acts).wsGen by
    exact key acts initState (fun _ => rfl) rfl
  intro acts
  induction acts with
  | nil => exact fun st p1 p2 => ⟨p1, p2⟩
  | cons a acts ih =>
    intro st p1 p2
    rw [run_cons]
    obtain ⟨q1, q2⟩ := step_inv st a p1 p2
    exact ih (step st a) q1 q2

/-- No step ever removes a registered message handler: the handler list of
the next state extends the current one. -/
theorem step_handlers_extend (st : ClientState) (a : Act) :
    ∃ t, (step st a).onmessage_handler = st.onmessage_handler ++ t := by
  cases a with
  | send d =>
    refine ⟨[], ?_⟩
    show (send st d).onmessage_handler = _
    rw [(send_preserves st d).2.2.2.1]
    simp
  | addMsgHandler h => exact ⟨[h], rfl⟩
  | onclose cb => exact ⟨[], by simp [step, onclose]⟩
  | close => exact ⟨[], by simp [step, close]⟩
  | evOpen =>
    refine ⟨[], ?_⟩
    show (evOpen st).onmessage_handler = _
    unfold evOpen
    dsimp only
    split <;> simp
  | evMessage raw =>
    refine ⟨[], ?_⟩
    show (evMessage st raw).onmessage_handler = _
    unfold evMessage
    cases jsonParse raw with
    | none => simp
    | some d => simp
  | evClose =>
    refine ⟨[], ?_⟩
    show (evClose st).onmessage_handler = _
    have he : evClose st =
        sendAll { st with wsGen := st.wsGen + 1, readyState := 0, recCbCalls := st.recCbCalls + 1 }
          st.oncloseCb := rfl
    rw [he, (sendAll_preserves _ _).2.2.2.1]
    simp

/-- The `onopen` callback transmits the whole queue in order, empties it, and
leaves the transport OPEN. -/
theorem evOpen_flush (st : ClientState) :
    (evOpen st).sent = st.sent ++ st.message_queue ∧
    (evOpen st).message_queue = [] ∧ (evOpen st).readyState = 1 := by
  unfold evOpen
  dsimp only
  split
  · exact ⟨rfl, rfl, rfl⟩
  · next hq =>
    have hl : ¬ st.message_queue.length > 0 := hq
    have h0 : st.message_queue = [] := List.length_eq_zero.mp (by omega)
    simp [h0]

/-- The `onclose` callback is the replacement of the handle followed by the
installed close handler's sends. -/
theorem evClose_eq (st : ClientState) :
    evClose st =
      sendAll { st with wsGen := st.wsGen + 1, readyState := 0, recCbCalls := st.recCbCalls + 1 }
        st.oncloseCb := rfl

end Client

/-! ## The claims -/

/-- Claim C2: on every CONNECTING→OPEN transition, the entire outbound buffer
is flushed in original enqueue order and then cleared; hence for every
sequence of `send` calls issued while not OPEN, the transmitted order after
the next OPEN transition equals the call order, with no reordering and no
loss, and the buffer is empty afterward. -/
theorem claim_c2_flush_fifo (st : ClientState) (ds : List Json) (h : st.readyState ≠ 1) :
    (Client.evOpen st).sent = st.sent ++ st.message_queue ∧
    (Client.evOpen st).message_queue = [] ∧
    (Client.evOpen (Client.sendAll st ds)).sent
        = st.sent ++ st.message_queue ++ ds.map Json.stringify ∧
    (Client.evOpen (Client.sendAll st ds)).message_queue = [] := by
  obtain ⟨e1, e2, _⟩ := Client.evOpen_flush st
  obtain ⟨f1, f2, _⟩ := Client.evOpen_flush (Client.sendAll st ds)
  refine ⟨e1, e2, ?_, f2⟩
  rw [f1, Client.sendAll_notOpen ds st h]
  simp

/-- Witness for C2: a client constructed with one buffered message, one
further `send` while CONNECTING, then the open event: both messages go out in
order and the buffer is empty. -/
theorem claim_c2_witness :
    (Client.evOpen (Client.sendAll { Client.initState with message_queue := ["m0"] } [Json.obj []])).sent
        = ["m0", "\x7b\x7d"] ∧
    (Client.evOpen (Client.sendAll { Client.initState with message_queue := ["m0"] } [Json.obj []])).message_queue
        = [] := by
  have h := claim_c2_flush_fifo { Client.initState with message_queue := ["m0"] } [Json.obj []]
    (by decide)
  exact ⟨h.2.2.1.trans (by rfl), h.2.2.2⟩

/-- Claim C3: `send` serializes and transmits immediately exactly when the
transport state is OPEN (`readyState === 1`); otherwise it appends the
serialized form to the tail of the outbound buffer; in both cases it is a
total function returning normally to the caller — no error is raised. -/
theorem claim_c3_send_immediate_iff_open (st : ClientState) (d : Json) :
    (st.readyState = 1 →
      Client.send st d = { st with sent := st.sent ++ [d.stringify] }) ∧
    (st.readyState ≠ 1 →
      Client.send st d = { st with message_queue := st.message_queue ++ [d.stringify] }) :=
  ⟨fun h => Client.send_open st d h, fun h => Client.send_notOpen st d h⟩

/-- Witness for C3 at a concrete OPEN state and a concrete CONNECTING state. -/
theorem claim_c3_witness :
    Client.send { Client.initState with readyState := 1 } (Json.obj [])
        = { Client.initState with readyState := 1, sent := ["\x7b\x7d"] } ∧
    Client.send Client.initState (Json.obj [])
        = { Client.initState with message_queue := ["\x7b\x7d"] } := by
  constructor
  · have h := (claim_c3_send_immediate_iff_open { Client.initState with readyState := 1 }
      (Json.obj [])).1 rfl
    exact h.trans rfl
  · have h := (claim_c3_send_immediate_iff_open Client.initState (Json.obj [])).2 (by decide)
    exact h.trans rfl

/-- Claim C10: when an inbound frame is not parseable as JSON, `JSON.parse`
throws as the first statement of the `onmessage` handler, so no registered
observer is invoked and the whole Session state — outbound buffer, observer
list, current transport handle and its ready state, reconnect callback — is
unchanged; in particular the client does not close the connection. -/
theorem claim_c10_malformed_frame_noop (st : ClientState) (raw : String)
    (h : jsonParse raw = none) :
    Client.evMessage st raw = st := by
  unfold Client.evMessage
  rw [h]

/-- Witness for C10: a frame that is not JSON leaves a populated client state
exactly as it was. -/
theorem claim_c10_witness :
    jsonParse "not json" = none ∧
    Client.evMessage { Client.initState with onmessage_handler := [0, 1], message_queue := ["m"] }
        "not json"
      = { Client.initState with onmessage_handler := [0, 1], message_queue := ["m"] } :=
  ⟨rfl, claim_c10_malformed_frame_noop _ _ rfl⟩

/-- Claim C1: after `close()` the current transport is CLOSING, so every
subsequent `send` queues its serialized message into the buffer and transmits
nothing; and since an OPEN transition is only ever driven by an `open` event
on a handle — which the client itself never produces after a deliberate close
— the buffer is never flushed in any continuation that contains no `open`
event: nothing buffered after `close()` ever reaches the network. -/
theorem claim_c1_close_buffered_never_sent (st : ClientState) (ds : List Json)
    (acts : List Client.Act) (hno : Client.Act.evOpen ∉ acts) :
    (Client.sendAll (Client.close st) ds).message_queue
        = st.message_queue ++ ds.map Json.stringify ∧
    (Client.sendAll (Client.close st) ds).sent = st.sent ∧
    (Client.run (Client.sendAll (Client.close st) ds) acts).sent = st.sent := by
  have h2 : (Client.close st).readyState ≠ 1 := by simp [Client.close]
  have hs := Client.sendAll_notOpen ds (Client.close st) h2
  refine ⟨?_, ?_, ?_⟩
  · rw [hs]; exact rfl
  · rw [hs]; exact rfl
  · have h3 : (Client.sendAll (Client.close st) ds).readyState ≠ 1 := by
      rw [(Client.sendAll_preserves ds (Client.close st)).1]
      exact h2
    exact (Client.sent_frozen acts _ h3 hno).1.trans (by rw [hs]; exact rfl)

/-- Witness for C1: close a fresh client, send one message, then let the
environment deliver a close event and the caller call `close()` again — the
network trace stays empty. -/
theorem claim_c1_witness :
    Client.Act.evOpen ∉ [Client.Act.evClose, Client.Act.close] ∧
    (Client.run (Client.sendAll (Client.close Client.initState) [Json.obj []])
        [Client.Act.evClose, Client.Act.close]).sent = [] := by
  have hno : Client.Act.evOpen ∉ [Client.Act.evClose, Client.Act.close] := by simp
  exact ⟨hno,
    (claim_c1_close_buffered_never_sent Client.initState [Json.obj []] _ hno).2.2⟩

/-- Claim C4: on every transport close event a brand-new handle is
constructed immediately and unconditionally — whatever the buffer holds and
with no backoff or retry limit in the model of the handler — the machine
re-enters CONNECTING, and the reconnect-notification callback fires exactly
once per completed handle replacement: once per close event, after the new
handle exists and while it is still CONNECTING; over any whole run the
number of callback invocations equals the number of handle replacements. -/
theorem claim_c4_reconnect_once (st : ClientState) :
    ((Client.evClose st).wsGen = st.wsGen + 1 ∧
      (Client.evClose st).readyState = 0 ∧
      (Client.evClose st).recCbCalls = st.recCbCalls + 1) ∧
    ∀ acts : List Client.Act,
      (Client.run Client.initState acts).recCbCalls
        = (Client.run Client.initState acts).wsGen := by
  constructor
  · obtain ⟨p1, p2, p3, _⟩ := Client.sendAll_preserves st.oncloseCb
      { st with wsGen := st.wsGen + 1, readyState := 0, recCbCalls := st.recCbCalls + 1 }
    refine ⟨?_, ?_, ?_⟩
    · rw [Client.evClose_eq, p2]
    · rw [Client.evClose_eq, p1]
    · rw [Client.evClose_eq, p3]
  · intro acts
    exact (Client.reachable_inv _ ⟨acts, rfl⟩).2

/-- Claim C5: every successfully decoded inbound frame is delivered to all
registered observers, each exactly once per frame, in registration order
(the deliveries appended are exactly the handler list, in order, paired with
the decoded frame); `addMsgHandler` appends without de-duplication, and no
step of the client ever removes an observer. -/
theorem claim_c5_broadcast (st : ClientState) (raw : String) (d : Json)
    (h : jsonParse raw = some d) :
    (Client.evMessage st raw).deliveries
        = st.deliveries ++ st.onmessage_handler.map (fun g => (g, d)) ∧
    (Client.evMessage st raw).onmessage_handler = st.onmessage_handler ∧
    (∀ g, (Client.addMsgHandler st g).onmessage_handler = st.onmessage_handler ++ [g]) ∧
    ∀ a : Client.Act, ∃ t,
      (Client.step st a).onmessage_handler = st.onmessage_handler ++ t := by
  refine ⟨?_, ?_, fun g => rfl, Client.step_handlers_extend st⟩
  · unfold Client.evMessage
    rw [h]
  · unfold Client.evMessage
    rw [h]

/-- Witness for C5: three registered observers, one of them registered twice,
each receive one copy of a decoded frame, in registration order. -/
theorem claim_c5_witness :
    (Client.evMessage { Client.initState with onmessage_handler := [0, 1, 0] }
        "\x7b\"stage\":\"Joining\"\x7d").deliveries
      = [(0, Json.obj [("stage", Json.str "Joining")]),
         (1, Json.obj [("stage", Json.str "Joining")]),
         (0, Json.obj [("stage", Json.str "Joining")])] := by
  have h := claim_c5_broadcast { Client.initState with onmessage_handler := [0, 1, 0] }
    "\x7b\"stage\":\"Joining\"\x7d" (Json.obj [("stage", Json.str "Joining")]) rfl
  exact h.1.trans (by rfl)

/-- Claim C7: outbound intents are serialized to text at `send` time, so the
outbound buffer holds immutable serialized text fixed at enqueue: the entry a
non-OPEN `send` appends is exactly the serialization of the intent value at
the moment of the call (so two runs whose intent objects agree at their
`send` calls buffer and eventually transmit identical text, whatever the
caller does to the objects afterwards — only the serialization at call time
matters), and no step of a reachable client ever alters an already buffered
or transmitted string: every step only appends to `sent ++ message_queue`. -/
theorem claim_c7_buffer_immutable (st : ClientState) (a : Client.Act)
    (hr : Client.Reachable st) :
    (∀ d : Json, st.readyState ≠ 1 →
      (Client.send st d).message_queue = st.message_queue ++ [d.stringify]) ∧
    (∀ d d' : Json, d.stringify = d'.stringify → Client.send st d = Client.send st d') ∧
    ∃ t, (Client.step st a).sent ++ (Client.step st a).message_queue
        = (st.sent ++ st.message_queue) ++ t := by
  obtain ⟨inv1, _⟩ := Client.reachable_inv st hr
  refine ⟨?_, ?_, ?_⟩
  · intro d hnot
    rw [Client.send_notOpen st d hnot]
  · intro d d' hdd
    unfold Client.send
    dsimp only
    rw [hdd]
  · cases a with
    | send d =>
      show ∃ t, (Client.send st d).sent ++ (Client.send st d).message_queue = _
      by_cases hrs : st.readyState = 1
      · refine ⟨[d.stringify], ?_⟩
        rw [Client.send_open st d hrs, inv1 hrs]
        simp
      · refine ⟨[d.stringify], ?_⟩
        rw [Client.send_notOpen st d hrs]
        simp
    | addMsgHandler h =>
      refine ⟨[], ?_⟩
      show (Client.addMsgHandler st h).sent ++ (Client.addMsgHandler st h).message_queue = _
      simp [Client.addMsgHandler]
    | onclose cb =>
      refine ⟨[], ?_⟩
      show (Client.onclose st cb).sent ++ (Client.onclose st cb).message_queue = _
      simp [Client.onclose]
    | close =>
      refine ⟨[], ?_⟩
      show (Client.close st).sent ++ (Client.close st).message_queue = _
      simp [Client.close]
    | evOpen =>
      refine ⟨[], ?_⟩
      show (Client.evOpen st).sent ++ (Client.evOpen st).message_queue = _
      obtain ⟨f1, f2, _⟩ := Client.evOpen_flush st
      rw [f1, f2]
    | evMessage raw =>
      refine ⟨[], ?_⟩
      show (Client.evMessage st raw).sent ++ (Client.evMessage st raw).message_queue = _
      unfold Client.evMessage
      cases jsonParse raw with
      | none => simp
      | some d => simp
    | evClose =>
      refine ⟨st.oncloseCb.map Json.stringify, ?_⟩
      show (Client.evClose st).sent ++ (Client.evClose st).message_queue = _
      rw [Client.evClose_eq, Client.sendAll_notOpen _ _ (by simp)]
      simp

/-- Witness for C7: at the freshly constructed (reachable, CONNECTING)
client, a `send` buffers exactly the serialized text of its intent. -/
theorem claim_c7_witness :
    (Client.send Client.initState (Json.obj [("Ready", Json.obj [])])).message_queue
      = ["\x7b\"Ready\":\x7b\x7d\x7d"] := by
  have h := (claim_c7_buffer_immutable Client.initState Client.Act.close ⟨[], rfl⟩).1
    (Json.obj [("Ready", Json.obj [])]) (by decide)
  exact h.trans (by rfl)

/-- Claim C9: in the caller-driven variant the reconnect callback runs right
after the replacement handle is constructed, while it is still CONNECTING, so
a `send` issued from inside the callback (the caller's rejoin `JoinRoom`) is
appended to the tail of the outbound buffer behind every message buffered
before the disconnect; on the next OPEN transition every previously buffered
intent is transmitted before the rejoin message. -/
theorem claim_c9_rejoin_behind_buffer (st : ClientState) (j : Json)
    (hcb : st.oncloseCb = [j]) :
    (Client.evClose st).readyState = 0 ∧
    (Client.evClose st).message_queue = st.message_queue ++ [j.stringify] ∧
    (Client.evOpen (Client.evClose st)).sent
        = st.sent ++ st.message_queue ++ [j.stringify] := by
  have key : Client.evClose st =
      { st with wsGen := st.wsGen + 1, readyState := 0, recCbCalls := st.recCbCalls + 1, message_queue := st.message_queue ++ [j.stringify] } := by
    rw [Client.evClose_eq, hcb, Client.sendAll_notOpen _ _ (by simp)]
    exact rfl
  refine ⟨by rw [key], by rw [key], ?_⟩
  obtain ⟨f1, _, _⟩ := Client.evOpen_flush (Client.evClose st)
  rw [f1, key]
  simp

/-- Witness for C9: one message buffered before the disconnect, a rejoin
callback installed; after the close event and the subsequent open event the
buffered message is transmitted before the rejoin `JoinRoom`. -/
theorem claim_c9_witness :
    (Client.evOpen (Client.evClose { Client.initState with message_queue := ["m1"], oncloseCb := [Json.obj [("JoinRoom", Json.obj [("name", Json.str "Ann"), ("room_id", Json.str "AB12")])]] })).sent
      = ["m1", "\x7b\"JoinRoom\":\x7b\"name\":\"Ann\",\"room_id\":\"AB12\"\x7d\x7d"] := by
  have h := (claim_c9_rejoin_behind_buffer
    { Client.initState with message_queue := ["m1"], oncloseCb := [Json.obj [("JoinRoom", Json.obj [("name", Json.str "Ann"), ("room_id", Json.str "AB12")])]] }
    (Json.obj [("JoinRoom", Json.obj [("name", Json.str "Ann"), ("room_id", Json.str "AB12")])])
    rfl).2.2
  exact h.trans (by rfl)

/-- Claim C8: the typed-intent helper surface emits exactly the closed set of
outbound wire variants, each by delegating to `send` with a
single-top-level-key tagged payload: `createRoom(name)` sends
CreateRoom/name, `joinRoom(room_id, name)` sends JoinRoom/name,room_id,
`ready()` sends Ready, `activePlayerChoose(card, description)` sends
ActivePlayerChooseCard/card,description, `playersChoose(card)` sends
PlayerChooseCard/card and `vote(card)` sends Vote/card; while OPEN each
helper transmits exactly the serialization of its payload, shown literally
for representative arguments. -/
theorem claim_c8_typed_helpers (st : ClientState) (n r c dsc : String)
    (h : st.readyState = 1) :
    (Client.createRoom st n
        = Client.send st (Json.obj [("CreateRoom", Json.obj [("name", Json.str n)])]) ∧
      Client.joinRoom st r n
        = Client.send st (Json.obj [("JoinRoom", Json.obj [("name", Json.str n), ("room_id", Json.str r)])]) ∧
      Client.ready st = Client.send st (Json.obj [("Ready", Json.obj [])]) ∧
      Client.activePlayerChoose st c dsc
        = Client.send st (Json.obj [("ActivePlayerChooseCard", Json.obj [("card", Json.str c), ("description", Json.str dsc)])]) ∧
      Client.playersChoose st c
        = Client.send st (Json.obj [("PlayerChooseCard", Json.obj [("card", Json.str c)])]) ∧
      Client.vote st c = Client.send st (Json.obj [("Vote", Json.obj [("card", Json.str c)])])) ∧
    ((Client.createRoom st n).sent
        = st.sent ++ [(Json.obj [("CreateRoom", Json.obj [("name", Json.str n)])]).stringify] ∧
      (Client.joinRoom st r n).sent
        = st.sent ++ [(Json.obj [("JoinRoom", Json.obj [("name", Json.str n), ("room_id", Json.str r)])]).stringify] ∧
      (Client.ready st).sent
        = st.sent ++ [(Json.obj [("Ready", Json.obj [])]).stringify] ∧
      (Client.activePlayerChoose st c dsc).sent
        = st.sent ++ [(Json.obj [("ActivePlayerChooseCard", Json.obj [("card", Json.str c), ("description", Json.str dsc)])]).stringify] ∧
      (Client.playersChoose st c).sent
        = st.sent ++ [(Json.obj [("PlayerChooseCard", Json.obj [("card", Json.str c)])]).stringify] ∧
      (Client.vote st c).sent
        = st.sent ++ [(Json.obj [("Vote", Json.obj [("card", Json.str c)])]).stringify]) ∧
    ((Client.createRoom { Client.initState with readyState := 1 } "Ann").sent
        = ["\x7b\"CreateRoom\":\x7b\"name\":\"Ann\"\x7d\x7d"] ∧
      (Client.joinRoom { Client.initState with readyState := 1 } "AB12" "Ann").sent
        = ["\x7b\"JoinRoom\":\x7b\"name\":\"Ann\",\"room_id\":\"AB12\"\x7d\x7d"] ∧
      (Client.ready { Client.initState with readyState := 1 }).sent
        = ["\x7b\"Ready\":\x7b\x7d\x7d"] ∧
      (Client.activePlayerChoose { Client.initState with readyState := 1 } "c1" "a cat").sent
        = ["\x7b\"ActivePlayerChooseCard\":\x7b\"card\":\"c1\",\"description\":\"a cat\"\x7d\x7d"] ∧
      (Client.playersChoose { Client.initState with readyState := 1 } "c2").sent
        = ["\x7b\"PlayerChooseCard\":\x7b\"card\":\"c2\"\x7d\x7d"] ∧
      (Client.vote { Client.initState with readyState := 1 } "c3").sent
        = ["\x7b\"Vote\":\x7b\"card\":\"c3\"\x7d\x7d"]) := by
  refine ⟨⟨rfl, rfl, rfl, rfl, rfl, rfl⟩, ⟨?_, ?_, ?_, ?_, ?_, ?_⟩,
    by rfl, by rfl, by rfl, by rfl, by rfl, by rfl⟩
  · unfold Client.createRoom
    rw [Client.send_open _ _ h]
  · unfold Client.joinRoom
    rw [Client.send_open _ _ h]
  · unfold Client.ready
    rw [Client.send_open _ _ h]
  · unfold Client.activePlayerChoose
    rw [Client.send_open _ _ h]
  · unfold Client.playersChoose
    rw [Client.send_open _ _ h]
  · unfold Client.vote
    rw [Client.send_open _ _ h]

/-- Witness for C8 at a concrete OPEN state: `vote("c3")` transmits the Vote
wire frame. -/
theorem claim_c8_witness :
    (Client.vote { Client.initState with readyState := 1 } "c3").sent
      = ["\x7b\"Vote\":\x7b\"card\":\"c3\"\x7d\x7d"] := by
  have h := (claim_c8_typed_helpers { Client.initState with readyState := 1 }
    "n" "r" "c3" "d" rfl).2.1
  exact h.2.2.2.2.2.trans (by rfl)

/-- Claim C6: the two near-duplicate client variants diverge on a disconnect
event: from a comparable state with one buffered message and a joined room,
the legacy variant's close handler prepends a synthetic serialized `JoinRoom`
message to the head of the outbound buffer before the reconnect completes,
while the library variant's close handler leaves the buffer untouched and
instead invokes the caller-supplied reconnect callback (here the default
no-op, counted once); the resulting buffers differ, so the variants are not
behaviorally equivalent. -/
theorem claim_c6_variant_divergence :
    (Client2.evClose { readyState := 1, wsGen := 0, message_queue := ["m"], onmessage_handler := [], opened := true, joined_room := "R", name := "N", sent := [], deliveries := [] }).message_queue
      = "\x7b\"JoinRoom\":\x7b\"name\":\"N\",\"room_id\":\"R\"\x7d\x7d" :: ["m"] ∧
    (Client.evClose { Client.initState with readyState := 1, message_queue := ["m"] }).message_queue
      = ["m"] ∧
    (Client.evClose { Client.initState with readyState := 1, message_queue := ["m"] }).recCbCalls
      = 1 ∧
    ("\x7b\"JoinRoom\":\x7b\"name\":\"N\",\"room_id\":\"R\"\x7d\x7d" :: ["m"] : List String)
      ≠ (["m"] : List String) := by
  exact ⟨by rfl, by rfl, by rfl, by decide⟩
